import Mathlib

/-!
Verification development for the jacobi-strategies portfolio analytics backend.

The NumPy code is shallowly embedded over exact rationals (and reals where the
source uses transcendental functions).  Arrays are modelled as index functions
with explicit dimensions:

* a return tensor of shape (A, T, S) becomes a function of type
  assets → periods → simulations → value, together with the three dimensions;
* a portfolio return matrix of shape (T, S) becomes a two-argument function;
* one-dimensional arrays coming from the web API are kept as lists.

Division follows the Lean convention x / 0 = 0 where the source would produce
a NaN or Inf; every place this matters is noted at the definition.
-/

set_option linter.unusedVariables false

/-! ## Generic list helpers mirroring NumPy reductions -/

/-- Arithmetic mean of a list, mirroring np.mean on a 1-D array
(sum divided by length; empty input yields 0 where NumPy yields NaN). -/
def meanList (l : List ℚ) : ℚ := l.sum / l.length

/-- Value sort of a list of rationals, modelling np.sort (value semantics:
for rational entries any correct comparison sort produces this list). -/
def npSorted (l : List ℚ) : List ℚ := List.insertionSort (· ≤ ·) l

/-- Median of a list, mirroring np.median: sort, take the middle element for
odd length, the average of the two middle elements for even length. -/
def medianList (l : List ℚ) : ℚ :=
  let s := npSorted l
  let n := s.length
  if n % 2 = 1 then s.getD (n / 2) 0
  else (s.getD (n / 2 - 1) 0 + s.getD (n / 2) 0) / 2

/-- Maximum of a list, mirroring np.max on a 1-D array (the source never
applies it to an empty array; the 0 default is dead there). -/
def listMaxD : List ℚ → ℚ
  | [] => 0
  | x :: xs => xs.foldl max x

/-- Aggregation dispatch shared by the statistics functions: the source tests
the string "median" and otherwise defaults to the mean. -/
def aggregate (aggregation : String) (l : List ℚ) : ℚ :=
  if aggregation = "median" then medianList l else meanList l

lemma foldl_max_le {l : List ℚ} {acc b : ℚ} (hacc : acc ≤ b)
    (h : ∀ x ∈ l, x ≤ b) : l.foldl max acc ≤ b := by
  induction l generalizing acc with
  | nil => simpa using hacc
  | cons y ys ih =>
      simp only [List.foldl_cons]
      exact ih (max_le hacc (h y (by simp))) (fun x hx => h x (by simp [hx]))

lemma le_foldl_max (l : List ℚ) (acc : ℚ) : acc ≤ l.foldl max acc := by
  induction l generalizing acc with
  | nil => simp
  | cons y ys ih =>
      simp only [List.foldl_cons]
      exact le_trans (le_max_left acc y) (ih (max acc y))

lemma mem_le_foldl_max {l : List ℚ} {x : ℚ} (hx : x ∈ l) (acc : ℚ) :
    x ≤ l.foldl max acc := by
  induction l generalizing acc with
  | nil => cases hx
  | cons y ys ih =>
      simp only [List.foldl_cons]
      rcases List.mem_cons.mp hx with h | h
      · rw [h]
        exact le_trans (le_max_right acc y) (le_foldl_max ys (max acc y))
      · exact ih h _

lemma foldl_max_mem (l : List ℚ) (acc : ℚ) :
    l.foldl max acc = acc ∨ l.foldl max acc ∈ l := by
  induction l generalizing acc with
  | nil => simp
  | cons y ys ih =>
      simp only [List.foldl_cons]
      rcases ih (max acc y) with h | h
      · rcases max_choice acc y with hm | hm
        · exact Or.inl (h.trans hm)
        · refine Or.inr ?_
          rw [h, hm]
          exact List.mem_cons_self y ys
      · exact Or.inr (List.mem_cons_of_mem y h)

lemma listMaxD_le {l : List ℚ} {b : ℚ} (hne : l ≠ []) (h : ∀ x ∈ l, x ≤ b) :
    listMaxD l ≤ b := by
  cases l with
  | nil => exact absurd rfl hne
  | cons x xs =>
      exact foldl_max_le (h x (by simp)) (fun y hy => h y (by simp [hy]))

lemma le_listMaxD {l : List ℚ} {x : ℚ} (hx : x ∈ l) : x ≤ listMaxD l := by
  cases l with
  | nil => cases hx
  | cons y ys =>
      rcases List.mem_cons.mp hx with h | h
      · exact h ▸ le_foldl_max ys y
      · exact mem_le_foldl_max h y

lemma listMaxD_mem {l : List ℚ} (hne : l ≠ []) : listMaxD l ∈ l := by
  cases l with
  | nil => exact absurd rfl hne
  | cons x xs =>
      rcases foldl_max_mem xs x with h | h
      · simp [listMaxD, h]
      · simp [listMaxD, h]

lemma meanList_le_of_forall {l : List ℚ} {v : ℚ} (hne : l ≠ [])
    (h : ∀ x ∈ l, x ≤ v) : meanList l ≤ v := by
  have hlen : 0 < (l.length : ℚ) := by
    have := List.length_pos.mpr hne
    exact_mod_cast this
  have hsum : l.sum ≤ (l.length : ℚ) * v := by
    have := List.sum_le_card_nsmul l v h
    simpa [nsmul_eq_mul] using this
  rw [meanList, div_le_iff₀ hlen]
  linarith

lemma meanList_nonneg {l : List ℚ} (h : ∀ x ∈ l, 0 ≤ x) : 0 ≤ meanList l := by
  have hsum : 0 ≤ l.sum := List.sum_nonneg h
  have hlen : 0 ≤ (l.length : ℚ) := by positivity
  exact div_nonneg hsum hlen

lemma npSorted_mem {l : List ℚ} {x : ℚ} (hx : x ∈ npSorted l) : x ∈ l :=
  (List.perm_insertionSort (· ≤ ·) l).mem_iff.mp hx

lemma npSorted_length (l : List ℚ) : (npSorted l).length = l.length :=
  (List.perm_insertionSort (· ≤ ·) l).length_eq

lemma getD_mem_of_lt {l : List ℚ} {i : ℕ} (h : i < l.length) :
    l.getD i 0 ∈ l := by
  rw [List.getD_eq_getElem l 0 h]
  exact List.getElem_mem h

lemma medianList_nonneg {l : List ℚ} (hne : l ≠ []) (h : ∀ x ∈ l, 0 ≤ x) :
    0 ≤ medianList l := by
  have hlen : 0 < (npSorted l).length := by
    rw [npSorted_length]; exact List.length_pos.mpr hne
  have hmem : ∀ i, i < (npSorted l).length → 0 ≤ (npSorted l).getD i 0 :=
    fun i hi => h _ (npSorted_mem (getD_mem_of_lt hi))
  rw [medianList]
  split
  · exact hmem _ (Nat.div_lt_of_lt_mul (by omega))
  · have h1 : 0 ≤ (npSorted l).getD ((npSorted l).length / 2 - 1) 0 :=
      hmem _ (by omega)
    have h2 : 0 ≤ (npSorted l).getD ((npSorted l).length / 2) 0 :=
      hmem _ (Nat.div_lt_of_lt_mul (by omega))
    positivity

lemma meanList_eq_zero {l : List ℚ} (h : ∀ x ∈ l, x = 0) : meanList l = 0 := by
  rw [meanList, List.sum_eq_zero h, zero_div]

lemma medianList_eq_zero {l : List ℚ} (h : ∀ x ∈ l, x = 0) :
    medianList l = 0 := by
  have hmem : ∀ i, (npSorted l).getD i 0 = 0 := by
    intro i
    by_cases hi : i < (npSorted l).length
    · exact h _ (npSorted_mem (getD_mem_of_lt hi))
    · rw [List.getD_eq_default _ _ (Nat.le_of_not_lt hi)]
  rw [medianList]
  split
  · exact hmem _
  · rw [hmem, hmem]; norm_num

lemma aggregate_nonneg {agg : String} {l : List ℚ} (hne : l ≠ [])
    (h : ∀ x ∈ l, 0 ≤ x) : 0 ≤ aggregate agg l := by
  rw [aggregate]
  split
  · exact medianList_nonneg hne h
  · exact meanList_nonneg h

lemma aggregate_eq_zero {agg : String} {l : List ℚ} (h : ∀ x ∈ l, x = 0) :
    aggregate agg l = 0 := by
  rw [aggregate]
  split
  · exact medianList_eq_zero h
  · exact meanList_eq_zero h

lemma getD_map_range {f : ℕ → ℚ} {i T : ℕ} (h : i < T) :
    ((List.range T).map f).getD i 0 = f i := by
  rw [List.getD_eq_getElem _ 0 (by simpa using h)]
  simp

/-! ## Portfolio return builder (src/backend/app/services/portfolio.py) -/

/-- Cumulative compounded performance of asset a from period 0 through t:
the code computes (1 + returns[:, :t+1, :]).prod(axis=1). -/
def cumulative_asset_returns (R : ℕ → ℕ → ℕ → ℚ) (a t s : ℕ) : ℚ :=
  ∏ u in Finset.range (t + 1), (1 + R a u s)

/-- Buy-and-hold weight update, per-path weighted cumulative performance:
current_weights[:, None] * cumulative_asset_returns (shape (A, S)). -/
def bh_weighted_cumulative (R : ℕ → ℕ → ℕ → ℚ) (w : ℕ → ℚ) (t a s : ℕ) : ℚ :=
  w a * cumulative_asset_returns R a t s

/-- Buy-and-hold weight update, per-path sum of weighted cumulative
performance: weighted_cumulative.sum(axis=0) (shape (S,)). -/
def bh_weight_sums (A : ℕ) (R : ℕ → ℕ → ℕ → ℚ) (w : ℕ → ℚ) (t s : ℕ) : ℚ :=
  ∑ a in Finset.range A, bh_weighted_cumulative R w t a s

/-- Divisor actually used for the per-path normalization:
np.where(weight_sums == 0, 1.0, weight_sums). -/
def bh_divisor (A : ℕ) (R : ℕ → ℕ → ℕ → ℚ) (w : ℕ → ℚ) (t s : ℕ) : ℚ :=
  if bh_weight_sums A R w t s = 0 then 1 else bh_weight_sums A R w t s

/-- Path-averaged drifted weights before the final renormalization:
(weighted_cumulative / weight_sums).mean(axis=1). -/
def bh_mean_drifted (A S : ℕ) (R : ℕ → ℕ → ℕ → ℚ) (w : ℕ → ℚ) (t a : ℕ) : ℚ :=
  (∑ s in Finset.range S, bh_weighted_cumulative R w t a s / bh_divisor A R w t s) / (S : ℚ)

/-- One buy-and-hold weight update step: the averaged drifted weights,
renormalized to sum to 1 (current_weights / current_weights.sum()). -/
def bh_update (A S : ℕ) (R : ℕ → ℕ → ℕ → ℚ) (w : ℕ → ℚ) (t : ℕ) : ℕ → ℚ :=
  fun a => bh_mean_drifted A S R w t a / ∑ b in Finset.range A, bh_mean_drifted A S R w t b

/-- The weight vector in force at period t of the buy-and-hold loop:
current_weights starts at the input weights and is updated once per period
(the loop performs the update only for t < T-1, and the entry for period t
only ever reads updates with index below t, so the trajectory needs no T). -/
def bh_weights (A S : ℕ) (R : ℕ → ℕ → ℕ → ℚ) (w0 : ℕ → ℚ) : ℕ → ℕ → ℚ
  | 0 => w0
  | t + 1 => bh_update A S R (bh_weights A S R w0 t) t

/-- Buy-and-hold portfolio returns, entry for period t and simulation s:
np.einsum with the current weights of the loop iteration. -/
def calculate_buy_and_hold_returns (A T S : ℕ) (R : ℕ → ℕ → ℕ → ℚ)
    (w0 : ℕ → ℚ) : ℕ → ℕ → ℚ :=
  fun t s => ∑ a in Finset.range A, bh_weights A S R w0 t a * R a t s

/-- portfolio_period_returns: dimension check, then dispatch on the
rebalancing strategy string.  Aw is the length of the weights array, A the
asset dimension of the returns tensor. -/
def portfolio_period_returns (Aw : ℕ) (w : ℕ → ℚ) (A T S : ℕ)
    (R : ℕ → ℕ → ℕ → ℚ) (rebalance : String) : Except String (ℕ → ℕ → ℚ) :=
  if Aw ≠ A then .error "Weights shape does not match returns assets dimension"
  else if rebalance = "periodic" then
    .ok (fun t s => ∑ a in Finset.range A, w a * R a t s)
  else if rebalance = "none" then
    .ok (calculate_buy_and_hold_returns A T S R w)
  else .error "Invalid rebalancing strategy"

/-- Claim C3: with matching dimensions, periodic rebalancing succeeds and
returns the einsum matrix P with P t s equal to the weighted sum of the
asset returns at (t, s); in particular a one-hot weight vector at asset a₀
reproduces that asset raw return series exactly. -/
theorem C3_periodic_weighted_sum (A T S : ℕ) (R : ℕ → ℕ → ℕ → ℚ)
    (w : ℕ → ℚ) (a₀ : ℕ) (ha : a₀ < A) :
    (∃ P, portfolio_period_returns A w A T S R "periodic" = .ok P ∧
      ∀ t s, P t s = ∑ a in Finset.range A, w a * R a t s) ∧
    (∃ P, portfolio_period_returns A (fun a => if a = a₀ then 1 else 0)
        A T S R "periodic" = .ok P ∧ ∀ t s, P t s = R a₀ t s) := by
  have hper : ∀ w' : ℕ → ℚ, portfolio_period_returns A w' A T S R "periodic" =
      .ok (fun t s => ∑ a in Finset.range A, w' a * R a t s) := by
    intro w'
    unfold portfolio_period_returns
    rw [if_neg (by simp), if_pos rfl]
  constructor
  · exact ⟨_, hper w, fun t s => rfl⟩
  · refine ⟨_, hper _, fun t s => ?_⟩
    simp only [ite_mul, one_mul, zero_mul]
    rw [Finset.sum_ite_eq' (Finset.range A) a₀ (fun a => R a t s)]
    simp [Finset.mem_range.mpr ha]

/-- Witness for C3 at A = 1, a₀ = 0 on a concrete tensor. -/
theorem C3_periodic_weighted_sum_witness :
    0 < 1 ∧
    ((∃ P, portfolio_period_returns 1 (fun _ => (1 : ℚ)) 1 1 1
        (fun _ _ _ => (2 : ℚ)) "periodic" = .ok P ∧
      ∀ t s, P t s = ∑ a in Finset.range 1, (1 : ℚ) * 2) ∧
    (∃ P, portfolio_period_returns 1 (fun a => if a = 0 then (1 : ℚ) else 0)
        1 1 1 (fun _ _ _ => (2 : ℚ)) "periodic" = .ok P ∧
      ∀ t s, P t s = 2)) :=
  ⟨Nat.zero_lt_one,
    C3_periodic_weighted_sum 1 1 1 (fun _ _ _ => (2 : ℚ)) (fun _ => 1) 0
      Nat.zero_lt_one⟩

/-! ## Buy-and-hold drift: claims C1 and C10 -/

/-- Drift-update formula stated by the specification, parameterized by the
weight vector it drifts: weights proportional to the per-asset cumulative
compounded performance from period 0 through t weighted by the given
weights, per-path renormalized (with divisor 1 substituted for a path whose
weighted sum is exactly zero), averaged across simulation paths, and
renormalized to sum to 1.  The claim instantiates this at the ORIGINAL
static weights; the code instantiates it at the current drifted weights. -/
def drift_formula_weights (A S : ℕ) (R : ℕ → ℕ → ℕ → ℚ) (w : ℕ → ℚ)
    (t : ℕ) : ℕ → ℚ :=
  fun a =>
    let perPathSum := fun s => ∑ b in Finset.range A, w b * cumulative_asset_returns R b t s
    let divisor := fun s => if perPathSum s = 0 then 1 else perPathSum s
    let avg := fun b =>
      (∑ s in Finset.range S, w b * cumulative_asset_returns R b t s / divisor s) / (S : ℚ)
    avg a / ∑ b in Finset.range A, avg b

/-- Concrete tensor for the C1 counterexample: A = 2, T = 3, S = 1; asset 0
returns 1 in period 0 and 0 afterwards, asset 1 always returns 0. -/
def c1Tensor : ℕ → ℕ → ℕ → ℚ := fun a t _ => if a = 0 ∧ t = 0 then 1 else 0

/-- Concrete initial weights for the C1 counterexample: equal weights. -/
def c1Weights : ℕ → ℚ := fun _ => 1 / 2

/-- Counterexample to claim C1 as stated: on c1Tensor with equal initial
weights, the effective weight vector used for period 2 (computed by the
buy-and-hold loop) is 4/5 for asset 0, while the weight proportional to the
ORIGINAL static weight times cumulative performance through period 1 is 2/3;
the loop drifts the already-drifted weights, not the original ones. -/
theorem C1_counterexample :
    1 + 1 < 3 ∧
    bh_weights 2 1 c1Tensor c1Weights (1 + 1) 0 = 4 / 5 ∧
    drift_formula_weights 2 1 c1Tensor c1Weights 1 0 = 2 / 3 ∧
    bh_weights 2 1 c1Tensor c1Weights (1 + 1) 0 ≠
      drift_formula_weights 2 1 c1Tensor c1Weights 1 0 := by
  have hbh : bh_weights 2 1 c1Tensor c1Weights (1 + 1) 0 = 4 / 5 := by
    norm_num [bh_weights, bh_update, bh_mean_drifted, bh_divisor,
      bh_weight_sums, bh_weighted_cumulative, cumulative_asset_returns,
      c1Tensor, c1Weights, Finset.sum_range_succ, Finset.prod_range_succ]
  have hspec : drift_formula_weights 2 1 c1Tensor c1Weights 1 0 = 2 / 3 := by
    norm_num [drift_formula_weights, cumulative_asset_returns,
      c1Tensor, c1Weights, Finset.sum_range_succ, Finset.prod_range_succ]
  refine ⟨by norm_num, hbh, hspec, ?_⟩
  rw [hbh, hspec]
  norm_num

/-- Claim C1 as amended: for every t with t + 1 < T, the effective weight
vector used for period t+1 is the drift formula applied to the CURRENT
(previous-period) effective weights — proportional, per asset, to the
previous effective weight times the cumulative compounded performance from
period 0 through t, per-path renormalized (divisor 1 substituted for a
zero-sum path), averaged across simulation paths into one shared weight
vector, and renormalized to sum to 1. -/
theorem C1_buy_and_hold_effective_weights (A T S : ℕ) (R : ℕ → ℕ → ℕ → ℚ)
    (w0 : ℕ → ℚ) (t : ℕ) (ht : t + 1 < T) :
    bh_weights A S R w0 (t + 1) =
      drift_formula_weights A S R (bh_weights A S R w0 t) t := by
  funext a
  rfl

/-- Witness for C1 at t = 0, T = 2 on a concrete one-asset tensor. -/
theorem C1_buy_and_hold_effective_weights_witness :
    0 + 1 < 2 ∧
    bh_weights 1 1 (fun _ _ _ => (0 : ℚ)) (fun _ => 1) (0 + 1) =
      drift_formula_weights 1 1 (fun _ _ _ => (0 : ℚ))
        (bh_weights 1 1 (fun _ _ _ => (0 : ℚ)) (fun _ => 1) 0) 0 :=
  ⟨by norm_num,
    C1_buy_and_hold_effective_weights 1 2 1 (fun _ _ _ => (0 : ℚ))
      (fun _ => 1) 0 (by norm_num)⟩

/-- Claim C10: the divisor used in the per-path normalization of the
buy-and-hold weight update is never zero, and for a path whose weighted
cumulative sum is exactly zero the divisor 1 is substituted. -/
theorem C10_divisor_never_zero (A : ℕ) (R : ℕ → ℕ → ℕ → ℚ) (w : ℕ → ℚ)
    (t s : ℕ) :
    bh_divisor A R w t s ≠ 0 ∧
    (bh_weight_sums A R w t s = 0 → bh_divisor A R w t s = 1) := by
  by_cases h : bh_weight_sums A R w t s = 0
  · constructor
    · simp [bh_divisor, h]
    · intro _
      simp [bh_divisor, h]
  · constructor
    · simp [bh_divisor, h]
    · intro hz
      exact absurd hz h

/-- Witness for C10 on a path with weighted cumulative sum exactly zero. -/
theorem C10_divisor_never_zero_witness :
    bh_weight_sums 1 (fun _ _ _ => (0 : ℚ)) (fun _ => 0) 0 0 = 0 ∧
    bh_divisor 1 (fun _ _ _ => (0 : ℚ)) (fun _ => 0) 0 0 ≠ 0 ∧
    bh_divisor 1 (fun _ _ _ => (0 : ℚ)) (fun _ => 0) 0 0 = 1 := by
  have hz : bh_weight_sums 1 (fun _ _ _ => (0 : ℚ)) (fun _ => 0) 0 0 = 0 := by
    simp [bh_weight_sums, bh_weighted_cumulative]
  exact ⟨hz, (C10_divisor_never_zero 1 _ _ 0 0).1,
    (C10_divisor_never_zero 1 _ _ 0 0).2 hz⟩

/-! ## API logic helpers (src/backend/app/api/logic.py): claims C2 and C4 -/

/-- Number of selected assets: np.sum over a boolean mask. -/
def count_true : List Bool → ℕ
  | [] => 0
  | b :: bs => (if b then 1 else 0) + count_true bs

/-- Mask applied to the raw weight vector: np.array(weights)[asset_mask]. -/
def masked_weights (weights : List ℚ) (asset_mask : List Bool) : List ℚ :=
  ((weights.zip asset_mask).filter (fun p => p.2)).map (fun p => p.1)

/-- normalize_weights: validate the length, apply the mask, and normalize to
sum 1; when the masked sum is exactly zero the code substitutes the
equal-weight vector np.ones(n) / n instead of failing. -/
def normalize_weights (weights : List ℚ) (asset_mask : List Bool) :
    Except String (List ℚ × ℕ) :=
  if weights.length ≠ asset_mask.length then
    .error "Expected number of weights to match the number of assets"
  else if (masked_weights weights asset_mask).sum = 0 then
    .ok (List.replicate (count_true asset_mask) (1 / (count_true asset_mask : ℚ)),
      count_true asset_mask)
  else
    .ok ((masked_weights weights asset_mask).map
      (fun x => x / (masked_weights weights asset_mask).sum), count_true asset_mask)

/-- Boolean mask over assets from the include/exclude category filters.
Python truthiness: a filter that is None or the empty list is skipped. -/
def category_mask (asset_categories : List String)
    (include_categories exclude_categories : Option (List String)) : List Bool :=
  asset_categories.map (fun c =>
    (match include_categories with
     | none => true
     | some l => if l = [] then true else l.contains c) &&
    (match exclude_categories with
     | none => true
     | some l => if l = [] then true else !(l.contains c)))

/-- get_asset_mask: build the category mask and fail when it selects no
asset. -/
def get_asset_mask (asset_categories : List String)
    (include_categories exclude_categories : Option (List String)) :
    Except String (List Bool) :=
  if (category_mask asset_categories include_categories exclude_categories).any
      (fun b => b) then
    .ok (category_mask asset_categories include_categories exclude_categories)
  else .error "No assets match the specified category filters"

/-- Indices of the True entries of a mask in increasing order: the row
selection performed by returns[asset_mask, :, :]. -/
def selected_indices : List Bool → List ℕ
  | [] => []
  | b :: bs =>
      if b then 0 :: (selected_indices bs).map (· + 1)
      else (selected_indices bs).map (· + 1)

/-- The masked tensor: row k is the k-th selected asset of the full tensor. -/
def masked_tensor (R : ℕ → ℕ → ℕ → ℚ) (asset_mask : List Bool) :
    ℕ → ℕ → ℕ → ℚ :=
  fun k t s => R ((selected_indices asset_mask).getD k 0) t s

/-- build_portfolio_returns: category mask, weight normalization, then the
inline einsum of the normalized weights with the masked tensor. -/
def build_portfolio_returns (weights : List ℚ)
    (include_categories exclude_categories : Option (List String))
    (asset_categories : List String) (R : ℕ → ℕ → ℕ → ℚ) :
    Except String ((ℕ → ℕ → ℚ) × ℕ) :=
  (get_asset_mask asset_categories include_categories exclude_categories).bind
    fun mask => (normalize_weights weights mask).bind
      fun p => .ok (fun t s =>
        ∑ k in Finset.range p.1.length, p.1.getD k 0 * masked_tensor R mask k t s,
        p.2)

/-- build_benchmark_returns: same pipeline as build_portfolio_returns but
returning only the return matrix. -/
def build_benchmark_returns (benchmark_weights : List ℚ)
    (include_categories exclude_categories : Option (List String))
    (asset_categories : List String) (R : ℕ → ℕ → ℕ → ℚ) :
    Except String (ℕ → ℕ → ℚ) :=
  (get_asset_mask asset_categories include_categories exclude_categories).bind
    fun mask => (normalize_weights benchmark_weights mask).bind
      fun p => .ok (fun t s =>
        ∑ k in Finset.range p.1.length, p.1.getD k 0 * masked_tensor R mask k t s)

lemma masked_weights_length {weights : List ℚ} {mask : List Bool}
    (h : weights.length = mask.length) :
    (masked_weights weights mask).length = count_true mask := by
  induction mask generalizing weights with
  | nil =>
      cases weights with
      | nil => rfl
      | cons x xs => simp at h
  | cons b bs ih =>
      cases weights with
      | nil => simp at h
      | cons x xs =>
          have hx : xs.length = bs.length := by simpa using h
          cases b with
          | false => simpa [masked_weights, count_true] using ih hx
          | true =>
              have := ih hx
              simp only [masked_weights, count_true] at this ⊢
              simp [this]
              omega

lemma selected_indices_length (mask : List Bool) :
    (selected_indices mask).length = count_true mask := by
  induction mask with
  | nil => rfl
  | cons b bs ih =>
      cases b with
      | false => simpa [selected_indices, count_true] using ih
      | true =>
          simp only [selected_indices, count_true] at ih ⊢
          simp [ih]
          omega

lemma normalize_weights_ok {weights : List ℚ} {mask : List Bool}
    {nw : List ℚ} {n : ℕ} (h : normalize_weights weights mask = .ok (nw, n)) :
    nw.length = count_true mask ∧ n = count_true mask := by
  unfold normalize_weights at h
  by_cases hlen : weights.length ≠ mask.length
  · rw [if_pos hlen] at h
    cases h
  · rw [if_neg hlen] at h
    push_neg at hlen
    by_cases hz : (masked_weights weights mask).sum = 0
    · rw [if_pos hz] at h
      obtain ⟨h1, h2⟩ := Prod.mk.injEq .. ▸ (Except.ok.injEq _ _).mp h
      constructor
      · rw [← h1]; simp
      · exact h2.symm
    · rw [if_neg hz] at h
      obtain ⟨h1, h2⟩ := Prod.mk.injEq .. ▸ (Except.ok.injEq _ _).mp h
      constructor
      · rw [← h1]
        simpa using masked_weights_length hlen
      · exact h2.symm

/-- Counterexample to claim C2 as stated: with all-zero weights over a
two-asset mask, normalize_weights does NOT fail; it silently returns the
equal-weight vector. -/
theorem C2_counterexample :
    (masked_weights [0, 0] [true, true]).sum = 0 ∧
    normalize_weights [0, 0] [true, true] = .ok ([1 / 2, 1 / 2], 2) := by
  constructor
  · simp [masked_weights]
  · simp only [normalize_weights, masked_weights, count_true]
    norm_num [List.replicate]

/-- Claim C2 as amended: for every weight vector and asset mask of equal
length, when the masked weights sum to exactly zero the normalizer does not
fail; it silently substitutes the equal-weight vector 1/n over the n
selected assets (the DegenerateWeights failure of the spec does not exist in the
code). -/
theorem C2_zero_sum_equal_weight_fallback (weights : List ℚ)
    (mask : List Bool) (hlen : weights.length = mask.length)
    (hz : (masked_weights weights mask).sum = 0) :
    normalize_weights weights mask =
      .ok (List.replicate (count_true mask) (1 / (count_true mask : ℚ)),
        count_true mask) := by
  unfold normalize_weights
  rw [if_neg (by simp [hlen]), if_pos hz]

/-- Witness for C2 on the all-zero two-asset input. -/
theorem C2_zero_sum_equal_weight_fallback_witness :
    ([(0 : ℚ), 0]).length = [true, true].length ∧
    (masked_weights [0, 0] [true, true]).sum = 0 ∧
    normalize_weights [0, 0] [true, true] =
      .ok (List.replicate (count_true [true, true])
        (1 / (count_true [true, true] : ℚ)), count_true [true, true]) := by
  have hz : (masked_weights [(0 : ℚ), 0] [true, true]).sum = 0 := by
    simp [masked_weights]
  exact ⟨by simp, hz,
    C2_zero_sum_equal_weight_fallback [0, 0] [true, true] (by simp) hz⟩

/-- Claim C4: whenever the category mask and the weight normalization
succeed, build_portfolio_returns and build_benchmark_returns both return
exactly the matrix produced by portfolio_period_returns with the "periodic"
policy on the normalized weights and the masked tensor; no rebalance
argument exists on this path, so the buy-and-hold branch is never taken. -/
theorem C4_build_returns_is_periodic (weights : List ℚ)
    (include_categories exclude_categories : Option (List String))
    (asset_categories : List String) (R : ℕ → ℕ → ℕ → ℚ) (T S : ℕ)
    (mask : List Bool) (nw : List ℚ) (n : ℕ)
    (hm : get_asset_mask asset_categories include_categories
      exclude_categories = .ok mask)
    (hn : normalize_weights weights mask = .ok (nw, n)) :
    ∃ P, build_portfolio_returns weights include_categories
        exclude_categories asset_categories R = .ok (P, n) ∧
      build_benchmark_returns weights include_categories
        exclude_categories asset_categories R = .ok P ∧
      portfolio_period_returns nw.length (fun k => nw.getD k 0)
        (selected_indices mask).length T S (masked_tensor R mask)
        "periodic" = .ok P := by
  have hlen : nw.length = (selected_indices mask).length := by
    rw [selected_indices_length, (normalize_weights_ok hn).1]
  refine ⟨fun t s =>
    ∑ k in Finset.range nw.length, nw.getD k 0 * masked_tensor R mask k t s,
    ?_, ?_, ?_⟩
  · rw [build_portfolio_returns, hm]
    simp only [Except.bind]
    rw [hn]
  · rw [build_benchmark_returns, hm]
    simp only [Except.bind]
    rw [hn]
  · unfold portfolio_period_returns
    rw [if_neg (by simp [hlen]), if_pos rfl, hlen]

/-- Witness for C4 on a one-asset universe with no category filters. -/
theorem C4_build_returns_is_periodic_witness :
    get_asset_mask ["equity"] none none = .ok [true] ∧
    normalize_weights [1] [true] = .ok ([1], 1) ∧
    ∃ P, build_portfolio_returns [1] none none ["equity"]
        (fun _ _ _ => (3 : ℚ)) = .ok (P, 1) ∧
      build_benchmark_returns [1] none none ["equity"]
        (fun _ _ _ => (3 : ℚ)) = .ok P ∧
      portfolio_period_returns ([(1 : ℚ)]).length
        (fun k => ([(1 : ℚ)]).getD k 0) (selected_indices [true]).length 4 5
        (masked_tensor (fun _ _ _ => (3 : ℚ)) [true]) "periodic" = .ok P := by
  have hm : get_asset_mask ["equity"] none none = .ok [true] := by
    simp [get_asset_mask, category_mask]
  have hn : normalize_weights [(1 : ℚ)] [true] = .ok ([1], 1) := by
    simp only [normalize_weights, masked_weights, count_true]
    norm_num
  exact ⟨hm, hn, C4_build_returns_is_periodic [1] none none ["equity"]
    (fun _ _ _ => (3 : ℚ)) 4 5 [true] [1] 1 hm hn⟩

/-! ## Value at Risk and Conditional Value at Risk (src/backend/app/logic/stats.py): claim C5 -/

/-- Row-major flattening of a (T, S) matrix: period_returns.flatten(). -/
def flatten_matrix (T S : ℕ) (P : ℕ → ℕ → ℚ) : List ℚ :=
  (List.range T).flatMap (fun t => (List.range S).map (fun s => P t s))

/-- Terminal compounded return of each simulation:
(1 + period_returns).prod(axis=0) - 1. -/
def terminal_returns (T S : ℕ) (P : ℕ → ℕ → ℚ) : List ℚ :=
  (List.range S).map (fun s => (∏ t in Finset.range T, (1 + P t s)) - 1)

/-- np.quantile with the default linear interpolation between order
statistics: virtual index h = q * (n - 1), gamma = h - floor h, and the
value interpolates the floor and the next order statistic. -/
def np_quantile (l : List ℚ) (q : ℚ) : ℚ :=
  let s := npSorted l
  let n := s.length
  if n = 0 then 0
  else
    let h := q * ((n : ℚ) - 1)
    let i := (⌊h⌋).toNat
    let j := min (i + 1) (n - 1)
    s.getD i 0 + (h - (i : ℚ)) * (s.getD j 0 - s.getD i 0)

/-- Result type of the VaR/CVaR functions: a scalar for the pooled and
cumulative methods, a per-year list for year_by_year. -/
inductive VarResult where
  | scalar (x : ℚ)
  | perYear (xs : List ℚ)
deriving DecidableEq

/-- value_at_risk_1period: validate the confidence and the method string,
then compute the (1 - confidence)-quantile of the distribution selected by
the method (the final unreachable raise of the source is dead code after
the membership check). -/
def value_at_risk_1period (T S : ℕ) (P : ℕ → ℕ → ℚ) (confidence : ℚ)
    (var_type : String) : Except String VarResult :=
  if ¬(0 < confidence ∧ confidence < 1) then
    .error "Confidence must be between 0 and 1"
  else if ¬(var_type = "pooled" ∨ var_type = "year_by_year" ∨
      var_type = "cumulative") then
    .error "var_type must be pooled, year_by_year, or cumulative"
  else if var_type = "pooled" then
    .ok (.scalar (np_quantile (flatten_matrix T S P) (1 - confidence)))
  else if var_type = "year_by_year" then
    .ok (.perYear ((List.range T).map (fun t =>
      np_quantile ((List.range S).map (fun s => P t s)) (1 - confidence))))
  else
    .ok (.scalar (np_quantile (terminal_returns T S P) (1 - confidence)))

/-- value_at_risk delegates to value_at_risk_1period. -/
def value_at_risk (T S : ℕ) (P : ℕ → ℕ → ℚ) (confidence : ℚ)
    (var_type : String) : Except String VarResult :=
  value_at_risk_1period T S P confidence var_type

/-- conditional_value_at_risk_1period: same validation, then the mean of
the values at or below the VaR threshold of the same distribution; when no
value qualifies the threshold itself is returned. -/
def conditional_value_at_risk_1period (T S : ℕ) (P : ℕ → ℕ → ℚ)
    (confidence : ℚ) (var_type : String) : Except String VarResult :=
  if ¬(0 < confidence ∧ confidence < 1) then
    .error "Confidence must be between 0 and 1"
  else if ¬(var_type = "pooled" ∨ var_type = "year_by_year" ∨
      var_type = "cumulative") then
    .error "var_type must be pooled, year_by_year, or cumulative"
  else if var_type = "pooled" then
    let l := flatten_matrix T S P
    let thr := np_quantile l (1 - confidence)
    let tail := l.filter (fun x => x ≤ thr)
    if tail = [] then .ok (.scalar thr) else .ok (.scalar (meanList tail))
  else if var_type = "year_by_year" then
    .ok (.perYear ((List.range T).map (fun t =>
      let yl := (List.range S).map (fun s => P t s)
      let thr := np_quantile yl (1 - confidence)
      let tail := yl.filter (fun x => x ≤ thr)
      if tail = [] then thr else meanList tail)))
  else
    let l := terminal_returns T S P
    let thr := np_quantile l (1 - confidence)
    let tail := l.filter (fun x => x ≤ thr)
    if tail = [] then .ok (.scalar thr) else .ok (.scalar (meanList tail))

/-- conditional_value_at_risk delegates to
conditional_value_at_risk_1period. -/
def conditional_value_at_risk (T S : ℕ) (P : ℕ → ℕ → ℚ) (confidence : ℚ)
    (var_type : String) : Except String VarResult :=
  conditional_value_at_risk_1period T S P confidence var_type

/-- Comparison of VaR results: scalar against scalar, or element-wise for
per-year lists of equal length. -/
def varLE : VarResult → VarResult → Bool
  | .scalar c, .scalar v => decide (c ≤ v)
  | .perYear cs, .perYear vs =>
      cs.length == vs.length &&
        (List.range cs.length).all (fun i => decide (cs.getD i 0 ≤ vs.getD i 0))
  | _, _ => false

lemma cvar_branch_le (l : List ℚ) (thr : ℚ) :
    (if l.filter (fun x => x ≤ thr) = [] then thr
     else meanList (l.filter (fun x => x ≤ thr))) ≤ thr := by
  by_cases h : l.filter (fun x => x ≤ thr) = []
  · rw [if_pos h]
  · rw [if_neg h]
    refine meanList_le_of_forall h (fun x hx => ?_)
    simpa using (List.mem_filter.mp hx).2

lemma except_ite_scalar (b : Prop) [Decidable b] (x y : ℚ) :
    (if b then (Except.ok (VarResult.scalar x) : Except String VarResult)
     else .ok (.scalar y)) = .ok (.scalar (if b then x else y)) := by
  split <;> rfl

/-- Claim C5: for every return matrix, confidence strictly between 0 and 1,
and recognized var method, VaR and CVaR both succeed and CVaR is less than
or equal to VaR — as scalars for pooled and cumulative, element-wise for
year_by_year. -/
theorem C5_cvar_le_var (T S : ℕ) (P : ℕ → ℕ → ℚ) (confidence : ℚ)
    (var_type : String) (hc : 0 < confidence ∧ confidence < 1)
    (hv : var_type = "pooled" ∨ var_type = "year_by_year" ∨
      var_type = "cumulative") :
    ∃ v c, value_at_risk T S P confidence var_type = .ok v ∧
      conditional_value_at_risk T S P confidence var_type = .ok c ∧
      varLE c v = true := by
  have hval : ∀ (l : List ℚ),
      varLE (.scalar (if l.filter (fun x => x ≤ np_quantile l (1 - confidence)) = []
          then np_quantile l (1 - confidence)
          else meanList (l.filter (fun x => x ≤ np_quantile l (1 - confidence)))))
        (.scalar (np_quantile l (1 - confidence))) = true := by
    intro l
    simp only [varLE, decide_eq_true_eq]
    exact cvar_branch_le l _
  rcases hv with h | h | h <;> subst h
  · refine ⟨_, _, ?_, ?_, hval (flatten_matrix T S P)⟩
    · unfold value_at_risk value_at_risk_1period
      rw [if_neg (not_not_intro hc), if_neg (not_not_intro (Or.inl rfl)),
        if_pos rfl]
    · unfold conditional_value_at_risk conditional_value_at_risk_1period
      rw [if_neg (not_not_intro hc), if_neg (not_not_intro (Or.inl rfl)),
        if_pos rfl]
      exact except_ite_scalar _ _ _
  · refine ⟨.perYear ((List.range T).map (fun t =>
        np_quantile ((List.range S).map (fun s => P t s)) (1 - confidence))),
      .perYear ((List.range T).map (fun t =>
        let yl := (List.range S).map (fun s => P t s)
        let thr := np_quantile yl (1 - confidence)
        let tail := yl.filter (fun x => x ≤ thr)
        if tail = [] then thr else meanList tail)), ?_, ?_, ?_⟩
    · unfold value_at_risk value_at_risk_1period
      rw [if_neg (not_not_intro hc),
        if_neg (not_not_intro (Or.inr (Or.inl rfl))), if_neg (by simp),
        if_pos rfl]
    · unfold conditional_value_at_risk conditional_value_at_risk_1period
      rw [if_neg (not_not_intro hc),
        if_neg (not_not_intro (Or.inr (Or.inl rfl))), if_neg (by simp),
        if_pos rfl]
    · simp only [varLE, Bool.and_eq_true, beq_iff_eq, List.length_map,
        List.length_range, List.all_eq_true, List.mem_range,
        decide_eq_true_eq]
      refine ⟨by trivial, fun i hi => ?_⟩
      rw [getD_map_range hi, getD_map_range hi]
      exact cvar_branch_le _ _
  · refine ⟨_, _, ?_, ?_, hval (terminal_returns T S P)⟩
    · unfold value_at_risk value_at_risk_1period
      rw [if_neg (not_not_intro hc),
        if_neg (not_not_intro (Or.inr (Or.inr rfl))), if_neg (by simp),
        if_neg (by simp)]
    · unfold conditional_value_at_risk conditional_value_at_risk_1period
      rw [if_neg (not_not_intro hc),
        if_neg (not_not_intro (Or.inr (Or.inr rfl))), if_neg (by simp),
        if_neg (by simp)]
      exact except_ite_scalar _ _ _

/-- Witness for C5 at confidence 1/2 with the pooled method on a concrete
1x1 matrix. -/
theorem C5_cvar_le_var_witness :
    ((0 : ℚ) < 1 / 2 ∧ (1 : ℚ) / 2 < 1) ∧
    ("pooled" = "pooled" ∨ "pooled" = "year_by_year" ∨
      "pooled" = "cumulative") ∧
    ∃ v c, value_at_risk 1 1 (fun _ _ => (0 : ℚ)) (1 / 2) "pooled" = .ok v ∧
      conditional_value_at_risk 1 1 (fun _ _ => (0 : ℚ)) (1 / 2) "pooled" =
        .ok c ∧ varLE c v = true :=
  ⟨by norm_num, Or.inl rfl,
    C5_cvar_le_var 1 1 (fun _ _ => (0 : ℚ)) (1 / 2) "pooled" (by norm_num)
      (Or.inl rfl)⟩

/-! ## Maximum drawdown (src/backend/app/logic/stats.py): claim C6 -/

/-- Cumulative product path of a simulation:
(1 + period_returns).cumprod(axis=0) at row t. -/
def cumulative_path (P : ℕ → ℕ → ℚ) (t s : ℕ) : ℚ :=
  ∏ u in Finset.range (t + 1), (1 + P u s)

/-- Running peak np.maximum.accumulate of the cumulative path. -/
def rolling_peak (P : ℕ → ℕ → ℚ) (t s : ℕ) : ℚ :=
  listMaxD ((List.range (t + 1)).map (fun u => cumulative_path P u s))

/-- Drawdown 1 - current value / peak value (positive magnitude convention).
At a path value of exactly zero the source computes 0/0 = NaN; the exact
embedding follows the Lean convention 0/0 = 0 and the drawdown is 1. -/
def drawdown (P : ℕ → ℕ → ℚ) (t s : ℕ) : ℚ :=
  1 - cumulative_path P t s / rolling_peak P t s

/-- maximum_drawdown: worst drawdown of each simulation, aggregated across
simulations by the mean/median dispatch. -/
def maximum_drawdown (T S : ℕ) (P : ℕ → ℕ → ℚ) (aggregation : String) : ℚ :=
  aggregate aggregation ((List.range S).map (fun s =>
    listMaxD ((List.range T).map (fun t => drawdown P t s))))

lemma rolling_peak_zero (P : ℕ → ℕ → ℚ) (s : ℕ) :
    rolling_peak P 0 s = cumulative_path P 0 s := rfl

lemma drawdown_zero_nonneg (P : ℕ → ℕ → ℚ) (s : ℕ) : 0 ≤ drawdown P 0 s := by
  rw [drawdown, rolling_peak_zero]
  by_cases h : cumulative_path P 0 s = 0
  · simp [h]
  · simp [div_self h]

lemma cum_chain {P : ℕ → ℕ → ℚ} {s T : ℕ}
    (hmono : ∀ t, t + 1 < T → cumulative_path P t s ≤ cumulative_path P (t + 1) s)
    {u v : ℕ} (huv : u ≤ v) (hv : v < T) :
    cumulative_path P u s ≤ cumulative_path P v s := by
  induction v with
  | zero =>
      have : u = 0 := Nat.le_zero.mp huv
      rw [this]
  | succ v ih =>
      rcases Nat.eq_or_lt_of_le huv with h | h
      · rw [h]
      · exact le_trans (ih (Nat.lt_succ_iff.mp h) (Nat.lt_of_succ_lt hv))
          (hmono v hv)

/-- Claim C6, first half, and the second half as amended: maximum_drawdown
is nonnegative for every return matrix and aggregation string, and equals
exactly 0 whenever the cumulative product path of every simulation is
monotonically non-decreasing AND starts strictly positive (the positivity
side condition is forced by the counterexample below). -/
theorem C6_maximum_drawdown_nonneg (T S : ℕ) (P : ℕ → ℕ → ℚ)
    (aggregation : String) (hT : 0 < T) (hS : 0 < S) :
    0 ≤ maximum_drawdown T S P aggregation ∧
    ((∀ s, s < S → 0 < cumulative_path P 0 s ∧
        ∀ t, t + 1 < T → cumulative_path P t s ≤ cumulative_path P (t + 1) s) →
      maximum_drawdown T S P aggregation = 0) := by
  constructor
  · refine aggregate_nonneg ?_ ?_
    · simp [List.range_eq_nil, Nat.pos_iff_ne_zero.mp hS]
    · intro x hx
      obtain ⟨s, hs, rfl⟩ := List.mem_map.mp hx
      refine le_trans (drawdown_zero_nonneg P s) (le_listMaxD ?_)
      exact List.mem_map.mpr ⟨0, List.mem_range.mpr hT, rfl⟩
  · intro hmono
    refine aggregate_eq_zero ?_
    intro x hx
    obtain ⟨s, hs, rfl⟩ := List.mem_map.mp hx
    have hs' := List.mem_range.mp hs
    obtain ⟨hpos, hstep⟩ := hmono s hs'
    have hdd : ∀ t, t < T → drawdown P t s = 0 := by
      intro t ht
      have hct : 0 < cumulative_path P t s :=
        lt_of_lt_of_le hpos (cum_chain hstep (Nat.zero_le t) ht)
      have hpeak : rolling_peak P t s = cumulative_path P t s := by
        refine le_antisymm ?_ ?_
        · refine listMaxD_le (by simp) ?_
          intro x hx
          obtain ⟨u, hu, rfl⟩ := List.mem_map.mp hx
          exact cum_chain hstep (Nat.lt_succ_iff.mp (List.mem_range.mp hu)) ht
        · exact le_listMaxD (List.mem_map.mpr
            ⟨t, List.mem_range.mpr (Nat.lt_succ_self t), rfl⟩)
      rw [drawdown, hpeak, div_self (ne_of_gt hct)]
      ring
    have hall : ∀ x ∈ (List.range T).map (fun t => drawdown P t s), x = 0 := by
      intro x hx
      obtain ⟨t, ht, rfl⟩ := List.mem_map.mp hx
      exact hdd t (List.mem_range.mp ht)
    have hne : (List.range T).map (fun t => drawdown P t s) ≠ [] := by
      simp [List.range_eq_nil, Nat.pos_iff_ne_zero.mp hT]
    exact hall _ (listMaxD_mem hne)

/-- Counterexample to the second half of claim C6 as stated: the matrix with
the single entry -1 has the constant (hence monotonically non-decreasing)
cumulative path [0], yet maximum_drawdown is 1, not 0 (the source computes
0/0 = NaN there, which is also not 0), so the claim needs a strictly
positive starting value. -/
theorem C6_counterexample :
    maximum_drawdown 1 1 (fun _ _ => (-1 : ℚ)) "mean" = 1 ∧
    cumulative_path (fun _ _ => (-1 : ℚ)) 0 0 = 0 := by
  constructor
  · have hagg : ∀ l, aggregate "mean" l = meanList l := fun l => if_neg (by decide)
    rw [maximum_drawdown, hagg]
    norm_num [meanList, listMaxD, drawdown, rolling_peak, cumulative_path]
  · norm_num [cumulative_path]

/-- Witness for C6 on a concrete 1x1 matrix with positive return. -/
theorem C6_maximum_drawdown_nonneg_witness :
    0 < 1 ∧
    (0 ≤ maximum_drawdown 1 1 (fun _ _ => (1 : ℚ)) "median" ∧
    ((∀ s, s < 1 → 0 < cumulative_path (fun _ _ => (1 : ℚ)) 0 s ∧
        ∀ t, t + 1 < 1 →
          cumulative_path (fun _ _ => (1 : ℚ)) t s ≤
            cumulative_path (fun _ _ => (1 : ℚ)) (t + 1) s) →
      maximum_drawdown 1 1 (fun _ _ => (1 : ℚ)) "median" = 0)) ∧
    maximum_drawdown 1 1 (fun _ _ => (1 : ℚ)) "median" = 0 := by
  have hmono : ∀ s, s < 1 → 0 < cumulative_path (fun _ _ => (1 : ℚ)) 0 s ∧
      ∀ t, t + 1 < 1 →
        cumulative_path (fun _ _ => (1 : ℚ)) t s ≤
          cumulative_path (fun _ _ => (1 : ℚ)) (t + 1) s := by
    intro s hs
    constructor
    · norm_num [cumulative_path]
    · intro t ht
      exact absurd ht (by omega)
  have hmain := C6_maximum_drawdown_nonneg 1 1 (fun _ _ => (1 : ℚ)) "median"
    Nat.zero_lt_one Nat.zero_lt_one
  exact ⟨Nat.zero_lt_one, hmain, hmain.2 hmono⟩

/-! ## Fisher correlation averaging (src/backend/app/services/portfolio.py): claim C7 -/

/-- Mean of a list of reals, mirroring np.mean. -/
noncomputable def meanR (l : List ℝ) : ℝ := l.sum / l.length

/-- Inverse hyperbolic tangent, the model of np.arctanh on (-1, 1). -/
noncomputable def arctanh (x : ℝ) : ℝ := Real.log ((1 + x) / (1 - x)) / 2

/-- np.clip(x, lo, hi) = min(max(x, lo), hi). -/
noncomputable def np_clip (x lo hi : ℝ) : ℝ := min (max x lo) hi

/-- Fisher z-transform averaging of correlation matrices: clip each entry to
[-0.9999, 0.9999], apply arctanh, average the transformed matrices
element-wise, apply tanh, and force the diagonal to exactly 1
(np.fill_diagonal after the inverse transform).  An empty input list makes
the source return an empty array, modelled as none. -/
noncomputable def fisher_average_correlations (corr_matrices : List (ℕ → ℕ → ℝ)) :
    Option (ℕ → ℕ → ℝ) :=
  match corr_matrices with
  | [] => none
  | _ :: _ => some (fun i j =>
      if i = j then 1
      else Real.tanh
        ((corr_matrices.map (fun m =>
          arctanh (np_clip (m i j) (-(9999 / 10000)) (9999 / 10000)))).sum /
          (corr_matrices.length : ℝ)))

/-- Claim C7: Fisher averaging of a non-empty list of correlation matrices
always produces a matrix with diagonal exactly 1, and the result is
symmetric whenever every input matrix is symmetric. -/
theorem C7_fisher_average_diag_symm (corr_matrices : List (ℕ → ℕ → ℝ))
    (M : ℕ → ℕ → ℝ) (h : fisher_average_correlations corr_matrices = some M) :
    (∀ i, M i i = 1) ∧
    ((∀ N ∈ corr_matrices, ∀ i j, N i j = N j i) →
      ∀ i j, M i j = M j i) := by
  cases corr_matrices with
  | nil => simp [fisher_average_correlations] at h
  | cons m ms =>
      rw [fisher_average_correlations] at h
      obtain rfl := (Option.some.injEq _ _).mp h
      constructor
      · intro i
        simp
      · intro hsym i j
        by_cases hij : i = j
        · subst hij
          simp
        · have hmap : ((m :: ms).map (fun N =>
              arctanh (np_clip (N i j) (-(9999 / 10000)) (9999 / 10000)))) =
              ((m :: ms).map (fun N =>
              arctanh (np_clip (N j i) (-(9999 / 10000)) (9999 / 10000)))) :=
            List.map_congr_left (fun N hN => by rw [hsym N hN i j])
          simp only [if_neg hij, if_neg (Ne.symm hij), hmap]

/-- Witness for C7 on the singleton list holding the zero matrix. -/
theorem C7_fisher_average_diag_symm_witness :
    ∃ M, fisher_average_correlations [fun _ _ => (0 : ℝ)] = some M ∧
      (∀ i, M i i = 1) ∧ ∀ i j, M i j = M j i :=
  ⟨_, rfl, (C7_fisher_average_diag_symm [fun _ _ => (0 : ℝ)] _ rfl).1,
    (C7_fisher_average_diag_symm [fun _ _ => (0 : ℝ)] _ rfl).2
      (fun N hN i j => by rw [List.mem_singleton.mp hN])⟩

/-! ## Asset metrics aggregator (src/backend/app/services/portfolio.py): claim C8 -/

/-- Assets included in the metrics: np.where(weights > 0)[0]. -/
def selected_asset_indices (A : ℕ) (w : ℕ → ℚ) : List ℕ :=
  (List.range A).filter (fun a => decide (0 < w a))

/-- Per-asset observation series selected by the aggregation convention
(pooled / year_by_year / simulation_by_simulation); for any other string
the source would crash on an unbound variable, modelled by the unreachable
empty list. -/
noncomputable def asset_series (T S : ℕ) (R : ℕ → ℕ → ℕ → ℝ) (a : ℕ)
    (aggregation : String) : List ℝ :=
  if aggregation = "pooled" then
    (List.range T).flatMap (fun t => (List.range S).map (fun s => R a t s))
  else if aggregation = "year_by_year" then
    (List.range T).map (fun t => meanR ((List.range S).map (fun s => R a t s)))
  else if aggregation = "simulation_by_simulation" then
    (List.range S).map (fun s => meanR ((List.range T).map (fun t => R a t s)))
  else []

/-- Per-asset annualised return of calculate_asset_metrics: for log returns
average directly and exponentiate, for simple returns first map through
log(1 + r). -/
noncomputable def asset_annualised_return (T S : ℕ) (R : ℕ → ℕ → ℕ → ℝ)
    (a : ℕ) (periods_per_year : ℝ) ( is_log : Bool) (aggregation : String) : ℝ :=
  if is_log then
    Real.exp (meanR (asset_series T S R a aggregation) * periods_per_year) - 1
  else
    Real.exp (meanR ((asset_series T S R a aggregation).map
      (fun r => Real.log (1 + r))) * periods_per_year) - 1

/-- The (asset index, annualised return) pairs produced by
calculate_asset_metrics for the selected assets. -/
noncomputable def calculate_asset_metrics_returns (A T S : ℕ)
    (R : ℕ → ℕ → ℕ → ℝ) (w : ℕ → ℚ) (periods_per_year : ℝ) ( is_log : Bool)
    (aggregation : String) : List (ℕ × ℝ) :=
  (selected_asset_indices A w).map
    (fun a => (a, asset_annualised_return T S R a periods_per_year is_log aggregation))

/-- Spec-side formula: transform to the log scale when the input is simple
returns, average the log series, and map back by exp(mean * ppy) - 1. -/
noncomputable def log_scale_annualised_return (data : List ℝ) ( is_log : Bool)
    (periods_per_year : ℝ) : ℝ :=
  Real.exp (meanR (if is_log then data
    else data.map (fun r => Real.log (1 + r))) * periods_per_year) - 1

/-- Claim C8: for every selected asset and every recognized aggregation
mode, the annualised return reported by the aggregator equals the log-scale
formula of the spec — the series is transformed by log(1 + r) exactly when
is_log is false, averaged on the log scale, and mapped back through
exp(mean * periods_per_year) - 1. -/
theorem C8_asset_return_log_scale (A T S : ℕ) (R : ℕ → ℕ → ℕ → ℝ)
    (w : ℕ → ℚ) (periods_per_year : ℝ) ( is_log : Bool) (aggregation : String)
    (a : ℕ)
    (hagg : aggregation = "pooled" ∨ aggregation = "year_by_year" ∨
      aggregation = "simulation_by_simulation")
    (ha : a ∈ selected_asset_indices A w) :
    asset_annualised_return T S R a periods_per_year is_log aggregation =
      log_scale_annualised_return (asset_series T S R a aggregation)
        is_log periods_per_year ∧
    (a, log_scale_annualised_return (asset_series T S R a aggregation)
        is_log periods_per_year) ∈
      calculate_asset_metrics_returns A T S R w periods_per_year is_log
        aggregation := by
  have heq : asset_annualised_return T S R a periods_per_year is_log
      aggregation = log_scale_annualised_return
        (asset_series T S R a aggregation) is_log periods_per_year := by
    cases is_log <;> rfl
  refine ⟨heq, ?_⟩
  rw [← heq]
  exact List.mem_map.mpr ⟨a, ha, rfl⟩

/-- Witness for C8 on a one-asset tensor with weight 1 and pooled
aggregation. -/
theorem C8_asset_return_log_scale_witness :
    ("pooled" = "pooled" ∨ "pooled" = "year_by_year" ∨
      "pooled" = "simulation_by_simulation") ∧
    0 ∈ selected_asset_indices 1 (fun _ => 1) ∧
    (asset_annualised_return 1 1 (fun _ _ _ => (0 : ℝ)) 0 1 false "pooled" =
      log_scale_annualised_return
        (asset_series 1 1 (fun _ _ _ => (0 : ℝ)) 0 "pooled") false 1 ∧
    (0, log_scale_annualised_return
        (asset_series 1 1 (fun _ _ _ => (0 : ℝ)) 0 "pooled") false 1) ∈
      calculate_asset_metrics_returns 1 1 1 (fun _ _ _ => (0 : ℝ))
        (fun _ => 1) 1 false "pooled") :=
  ⟨Or.inl rfl, by decide,
    C8_asset_return_log_scale 1 1 1 (fun _ _ _ => (0 : ℝ)) (fun _ => 1) 1
      false "pooled" 0 (Or.inl rfl) (by decide)⟩

/-! ## Aggregated statistics (src/backend/app/logic/stats.py): claim C9 -/

/-- Median of a list of reals, mirroring np.median. -/
noncomputable def medianR (l : List ℝ) : ℝ :=
  let s := List.insertionSort (· ≤ ·) l
  let n := s.length
  if n % 2 = 1 then s.getD (n / 2) 0
  else (s.getD (n / 2 - 1) 0 + s.getD (n / 2) 0) / 2

/-- Aggregation dispatch of the real-valued statistics: the source tests the
string "median" and otherwise defaults to the mean. -/
noncomputable def aggregateR (aggregation : String) (l : List ℝ) : ℝ :=
  if aggregation = "median" then medianR l else meanR l

/-- np.std with the given ddof: square root of the mean squared deviation
from the mean, with divisor length - ddof. -/
noncomputable def np_std (l : List ℝ) (ddof : ℕ) : ℝ :=
  Real.sqrt ((l.map (fun x => (x - meanR l) ^ 2)).sum / ((l.length : ℝ) - ddof))

/-- annualised_return: per-simulation CAGR of the compounded path, then
aggregate (cumulative ** (1 / years) - 1 with years = T / periods_per_year). -/
noncomputable def annualised_return (T S : ℕ) (P : ℕ → ℕ → ℝ)
    (periods_per_year : ℝ) (aggregation : String) : ℝ :=
  aggregateR aggregation ((List.range S).map (fun s =>
    (∏ t in Finset.range T, (1 + P t s)) ^ (1 / ((T : ℝ) / periods_per_year)) - 1))

/-- annualised_volatility: per-simulation sample std (ddof = 1) scaled by
sqrt(periods_per_year), then aggregate. -/
noncomputable def annualised_volatility (T S : ℕ) (P : ℕ → ℕ → ℝ)
    (periods_per_year : ℝ) (aggregation : String) : ℝ :=
  aggregateR aggregation ((List.range S).map (fun s =>
    np_std ((List.range T).map (fun t => P t s)) 1 * Real.sqrt periods_per_year))

/-- sharpe_ratio: per-simulation (CAGR - risk free rate) / annualized
volatility, then aggregate. -/
noncomputable def sharpe_ratio (T S : ℕ) (P : ℕ → ℕ → ℝ)
    (risk_free_rate periods_per_year : ℝ) (aggregation : String) : ℝ :=
  aggregateR aggregation ((List.range S).map (fun s =>
    ((∏ t in Finset.range T, (1 + P t s)) ^ (1 / ((T : ℝ) / periods_per_year))
        - 1 - risk_free_rate) /
      (np_std ((List.range T).map (fun t => P t s)) 1 *
        Real.sqrt periods_per_year)))

/-- tracking_error: fails when the two matrices differ in shape, otherwise
per-simulation std (ddof = 1) of the excess returns, annualized, then
aggregated. -/
noncomputable def tracking_error (Tp Sp Tb Sb : ℕ) (P B : ℕ → ℕ → ℝ)
    (periods_per_year : ℝ) (aggregation : String) : Except String ℝ :=
  if Tp = Tb ∧ Sp = Sb then
    .ok (aggregateR aggregation ((List.range Sp).map (fun s =>
      np_std ((List.range Tp).map (fun t => P t s - B t s)) 1 *
        Real.sqrt periods_per_year)))
  else .error "Portfolio and benchmark returns must have the same shape"

/-- downside_deviation: per-simulation root mean square of the shortfall
below the minimum acceptable return, annualized, then aggregated. -/
noncomputable def downside_deviation (T S : ℕ) (P : ℕ → ℕ → ℝ)
    (minimum_acceptable_return periods_per_year : ℝ) (aggregation : String) : ℝ :=
  aggregateR aggregation ((List.range S).map (fun s =>
    Real.sqrt (meanR ((List.range T).map (fun t =>
      (min (P t s - minimum_acceptable_return) 0) ^ 2))) *
      Real.sqrt periods_per_year))

/-- Counterexample to claim C9 as stated: maximum_drawdown called with the
unrecognized aggregation string "bogus" does not fail; it produces the
value 1/2 on a concrete matrix, identical to the "mean" aggregation. -/
theorem C9_counterexample :
    maximum_drawdown 2 1 (fun t _ => if t = 0 then 1 else -(1 / 2)) "bogus"
      = 1 / 2 ∧
    maximum_drawdown 2 1 (fun t _ => if t = 0 then 1 else -(1 / 2)) "bogus"
      = maximum_drawdown 2 1 (fun t _ => if t = 0 then 1 else -(1 / 2))
        "mean" := by
  have hagg : ∀ ag, ag ≠ "median" → ∀ l, aggregate ag l = meanList l :=
    fun ag hag l => if_neg hag
  have hval : maximum_drawdown 2 1 (fun t _ => if t = 0 then 1 else -(1 / 2))
      "bogus" = 1 / 2 := by
    rw [maximum_drawdown, hagg _ (by decide)]
    norm_num [meanList, listMaxD, drawdown, rolling_peak, cumulative_path,
      List.range_succ, Finset.prod_range_succ, max_def]
  have hval' : maximum_drawdown 2 1 (fun t _ => if t = 0 then 1 else -(1 / 2))
      "mean" = 1 / 2 := by
    rw [maximum_drawdown, hagg _ (by decide)]
    norm_num [meanList, listMaxD, drawdown, rolling_peak, cumulative_path,
      List.range_succ, Finset.prod_range_succ, max_def]
  exact ⟨hval, hval.trans hval'.symm⟩

/-- Claim C9 as amended: every statistic that takes an aggregation mode
treats any string other than "median" (in particular every unrecognized
string) exactly as "mean"; none of them fails on an invalid aggregation
string. -/
theorem C9_invalid_aggregation_defaults_to_mean (aggregation : String)
    (h1 : aggregation ≠ "mean") (h2 : aggregation ≠ "median") :
    (∀ T S P periods_per_year,
      annualised_return T S P periods_per_year aggregation =
        annualised_return T S P periods_per_year "mean") ∧
    (∀ T S P periods_per_year,
      annualised_volatility T S P periods_per_year aggregation =
        annualised_volatility T S P periods_per_year "mean") ∧
    (∀ T S P risk_free_rate periods_per_year,
      sharpe_ratio T S P risk_free_rate periods_per_year aggregation =
        sharpe_ratio T S P risk_free_rate periods_per_year "mean") ∧
    (∀ Tp Sp Tb Sb P B periods_per_year,
      tracking_error Tp Sp Tb Sb P B periods_per_year aggregation =
        tracking_error Tp Sp Tb Sb P B periods_per_year "mean") ∧
    (∀ T S P minimum_acceptable_return periods_per_year,
      downside_deviation T S P minimum_acceptable_return periods_per_year
        aggregation =
      downside_deviation T S P minimum_acceptable_return periods_per_year
        "mean") ∧
    (∀ T S P, maximum_drawdown T S P aggregation =
      maximum_drawdown T S P "mean") := by
  have haggR : ∀ l, aggregateR aggregation l = aggregateR "mean" l := by
    intro l
    rw [aggregateR, if_neg h2, aggregateR, if_neg (by decide)]
  have hagg : ∀ l, aggregate aggregation l = aggregate "mean" l := by
    intro l
    rw [aggregate, if_neg h2, aggregate, if_neg (by decide)]
  refine ⟨?_, ?_, ?_, ?_, ?_, ?_⟩
  · intro T S P ppy
    simp only [annualised_return, haggR]
  · intro T S P ppy
    simp only [annualised_volatility, haggR]
  · intro T S P rfr ppy
    simp only [sharpe_ratio, haggR]
  · intro Tp Sp Tb Sb P B ppy
    simp only [tracking_error, haggR]
  · intro T S P mar ppy
    simp only [downside_deviation, haggR]
  · intro T S P
    simp only [maximum_drawdown, hagg]

/-- Witness for C9 at the concrete unrecognized string "bogus". -/
theorem C9_invalid_aggregation_defaults_to_mean_witness :
    ("bogus" ≠ "mean" ∧ "bogus" ≠ "median") ∧
    (∀ T S P, maximum_drawdown T S P "bogus" =
      maximum_drawdown T S P "mean") :=
  ⟨⟨by decide, by decide⟩,
    (C9_invalid_aggregation_defaults_to_mean "bogus" (by decide)
      (by decide)).2.2.2.2.2⟩
